import Mathlib

/-!
Shallow embedding of the branch time tracker (`src/extension.ts`).

The tracker's mutable module state (`trackingStart`, `currentBranch`,
`lastTrackedBranch`, `branchTimeMap`, `currentWorkspace`, and the three
`globalState` storage slots used as the persisted session marker) is collected
in one record `TrackerState`.  JavaScript objects used as dictionaries are
embedded as insertion-ordered association lists; epoch timestamps and second
counts are embedded as `Int` (JS numbers holding integral values), with
`Math.floor ((now - t) / 1000)` embedded as `Int.fdiv (now - t) 1000`.
JS truthiness of the nullable fields is modelled explicitly: a `string | null`
is truthy when it is `some b` with `b ≠ ""`, a `number | null` when it is
`some t` with `t ≠ 0`.
-/

namespace BranchTimer

/-- Lookup in a JS-object-as-dictionary: first entry with the given key. -/
def lookupA {α : Type} : List (String × α) → String → Option α
  | [], _ => none
  | (k, v) :: rest, key => if k = key then some v else lookupA rest key

/-- Assignment `obj[key] = v` on a JS object: replace the value at an existing
key in place, otherwise append the new entry at the end. -/
def setA {α : Type} : List (String × α) → String → α → List (String × α)
  | [], key, v => [(key, v)]
  | (k, w) :: rest, key, v =>
    if k = key then (k, v) :: rest else (k, w) :: setA rest key v

/-- `delete obj[key]` on a JS object. -/
def removeA {α : Type} (l : List (String × α)) (key : String) : List (String × α) :=
  l.filter (fun p => p.1 != key)

/-- The ledger `branchTimeMap : workspace -> branch -> seconds`. -/
abbrev Ledger := List (String × List (String × Int))

/-- `branchTimeMap[w][b]` as an optional value (absent outer or inner key gives
`none`). -/
def lookup2 (led : Ledger) (w b : String) : Option Int :=
  match lookupA led w with
  | none => none
  | some m => lookupA m b

/-- `branchTimeMap[w][b] || 0`: the stored total, with absent entries read
as `0`. -/
def val2 (led : Ledger) (w b : String) : Int :=
  (lookup2 led w b).getD 0

/-- `updateBranchTime` (extension.ts, lines 64-73): returns early when
`currentWorkspace` is the empty string, creates the inner object when absent,
then adds `seconds` onto `branchTimeMap[workspace][branch] || 0`. -/
def updateBranchTime (led : Ledger) (workspace branch : String) (seconds : Int) : Ledger :=
  if workspace = "" then led
  else
    let inner := (lookupA led workspace).getD []
    let prev := (lookupA inner branch).getD 0
    setA led workspace (setA inner branch (prev + seconds))

/-- The tracker's module-level mutable state plus the three persisted
`globalState` slots (`LAST_TRACKED_BRANCH`, `LAST_TRACKING_START`,
`CURRENT_WORKSPACE`) that form the persisted session marker. -/
structure TrackerState where
  trackingStart : Option Int
  currentBranch : Option String
  lastTrackedBranch : Option String
  branchTimeMap : Ledger
  currentWorkspace : String
  storedLastTrackedBranch : Option String
  storedLastTrackingStart : Option Int
  storedCurrentWorkspace : Option String
deriving DecidableEq, Repr

/-- `clearSessionData` (lines 174-178): null out the three marker slots. -/
def clearSessionData (s : TrackerState) : TrackerState :=
  { s with storedLastTrackedBranch := none
           storedLastTrackingStart := none
           storedCurrentWorkspace := none }

/-- `stopAndLogTime` (lines 370-388).  Guard `!trackingStart || !currentBranch`
(JS truthiness: `0` and `""` are falsy); commit
`Math.floor((Date.now() - trackingStart) / 1000)` via `updateBranchTime`; on a
clean exit also clear the session marker; finally null the open session. -/
def stopAndLogTime (s : TrackerState) (isCleanExit : Bool) (now : Int) : TrackerState :=
  match s.trackingStart, s.currentBranch with
  | some t, some branch =>
    if t = 0 ∨ branch = "" then s
    else
      let durationSec := Int.fdiv (now - t) 1000
      let led := updateBranchTime s.branchTimeMap s.currentWorkspace branch durationSec
      let s1 := { s with branchTimeMap := led }
      let s2 := if isCleanExit then clearSessionData s1 else s1
      { s2 with trackingStart := none, currentBranch := none }
  | _, _ => s

/-- `startTrackingIfBranchFound` (lines 348-368) with the result of
`getGitBranchName()` passed in as `resolved` (`null` or the branch name; the
empty string is falsy and behaves like `null` under `if (branch)`).  When the
resolved branch equals `lastTrackedBranch` and `trackingStart` is truthy,
return unchanged; otherwise stop the open session and start a new one at
`now`, persisting the new session marker. -/
def startTrackingIfBranchFound (s : TrackerState) (resolved : Option String)
    (now : Int) : TrackerState :=
  match resolved with
  | none => s
  | some branch =>
    if branch = "" then s
    else if s.lastTrackedBranch = some branch ∧ ¬s.trackingStart.getD 0 = 0 then s
    else
      let s1 := stopAndLogTime s false now
      { s1 with currentBranch := some branch
                lastTrackedBranch := some branch
                trackingStart := some now
                storedLastTrackedBranch := some branch
                storedLastTrackingStart := some now
                storedCurrentWorkspace := some s1.currentWorkspace }

/-- `MAX_SESSION_AGE_MS = 10 * 60 * 1000` (line 93). -/
def MAX_SESSION_AGE_MS : Int := 10 * 60 * 1000

/-- The session-recovery block of `activate` (lines 89-107): when the stored
branch and start time are truthy and the stored workspace strictly equals the
current one, resume the session when its age is under `MAX_SESSION_AGE_MS`,
otherwise clear the marker; any other marker is left untouched. -/
def recoverStep (s : TrackerState) (now : Int) : TrackerState :=
  match s.storedLastTrackedBranch, s.storedLastTrackingStart with
  | some lastBranch, some lastStartTime =>
    if lastBranch = "" ∨ lastStartTime = 0 ∨
        ¬s.storedCurrentWorkspace = some s.currentWorkspace then s
    else if now - lastStartTime < MAX_SESSION_AGE_MS then
      { s with currentBranch := some lastBranch
               lastTrackedBranch := some lastBranch
               trackingStart := some lastStartTime }
    else clearSessionData s
  | _, _ => s

/-- `clearWorkspaceTimeData` (lines 442-455): after the user confirms, delete
the current workspace's entry from the ledger; otherwise do nothing. -/
def clearWorkspaceTimeData (s : TrackerState) (confirmed : Bool) : TrackerState :=
  if confirmed then
    { s with branchTimeMap := removeA s.branchTimeMap s.currentWorkspace }
  else s

/-- The discrete signals the tracker reacts to.  `activity` stands for any
event routed to `startTrackingIfBranchFound` (text-document change, active
editor change, focus gained, the manual start command), carrying the branch
resolution result; `focusLost` and the idle timeout both invoke a non-clean
`stopAndLogTime`; `shutdown` is `deactivate`'s clean stop; `clearData` is the
clear-time-data command with the user's confirmation choice. -/
inductive Sig where
  | activity (resolved : Option String) (now : Int)
  | focusLost (now : Int)
  | idleTimeout (now : Int)
  | shutdown (now : Int)
  | clearData (confirmed : Bool)
deriving DecidableEq, Repr

/-- One signal dispatch, as wired up in `activate` (lines 110-171) and
`deactivate` (lines 457-460). -/
def step (s : TrackerState) : Sig → TrackerState
  | .activity r now => startTrackingIfBranchFound s r now
  | .focusLost now => stopAndLogTime s false now
  | .idleTimeout now => stopAndLogTime s false now
  | .shutdown now => stopAndLogTime s true now
  | .clearData c => clearWorkspaceTimeData s c

/-- Process a list of signals in arrival order. -/
def run (s : TrackerState) (sigs : List Sig) : TrackerState :=
  sigs.foldl step s

/-- The state right after `activate` initialises its module variables in a
fresh workspace with an empty stored ledger and no session marker. -/
def initState (w : String) : TrackerState :=
  { trackingStart := none
    currentBranch := none
    lastTrackedBranch := none
    branchTimeMap := []
    currentWorkspace := w
    storedLastTrackedBranch := none
    storedLastTrackingStart := none
    storedCurrentWorkspace := none }

/-- Sum of all committed seconds in one workspace's branch map. -/
def innerSum (m : List (String × Int)) : Int :=
  (m.map Prod.snd).sum

/-- Sum of all committed seconds across every workspace and branch of the
ledger. -/
def ledgerSum (led : Ledger) : Int :=
  (led.map (fun p => innerSum p.2)).sum

/-- The timestamp a signal carries, when it carries one. -/
def sigTime : Sig → Option Int
  | .activity _ n => some n
  | .focusLost n => some n
  | .idleTimeout n => some n
  | .shutdown n => some n
  | .clearData _ => none

/-- Split a character list at every occurrence of `sep` (occurrences are
dropped; empty segments are kept). -/
def splitOnChar (sep : Char) : List Char → List (List Char)
  | [] => [[]]
  | c :: rest =>
    match splitOnChar sep rest with
    | [] => if c = sep then [[], []] else [[c]]
    | h :: t => if c = sep then [] :: h :: t else (c :: h) :: t

/-- `path.basename` (POSIX): the last non-empty slash-separated segment, or
the path itself when there is none. -/
def basename (p : String) : String :=
  let segs := (splitOnChar '/' p.toList).map String.mk
  ((segs.filter (fun s => s != "")).getLast?).getD p

/-- UTF-8 encoding of one character. -/
def charUTF8 (c : Char) : List Nat :=
  let n := c.toNat
  if n < 128 then [n]
  else if n < 2048 then [192 + n / 64, 128 + n % 64]
  else if n < 65536 then [224 + n / 4096, 128 + n / 64 % 64, 128 + n % 64]
  else [240 + n / 262144, 128 + n / 4096 % 64, 128 + n / 64 % 64, 128 + n % 64]

/-- The UTF-8 bytes of a string, as `Buffer.from(path)` produces them. -/
def pathBytes (s : String) : List Nat :=
  (s.toList.map charUTF8).flatten

/-- The standard base64 alphabet. -/
def b64Alphabet : List Char :=
  "ABCDEFGHIJKLMNOPQRSTUVWXYZabcdefghijklmnopqrstuvwxyz0123456789+/".toList

/-- The base64 digit for a 6-bit value. -/
def b64Char (n : Nat) : Char := b64Alphabet.getD n '='

/-- Standard base64 encoding of a byte list (`Buffer.toString('base64')`). -/
def base64Encode : List Nat → List Char
  | [] => []
  | [a] => [b64Char (a / 4), b64Char (a % 4 * 16), '=', '=']
  | [a, b] => [b64Char (a / 4), b64Char (a % 4 * 16 + b / 16), b64Char (b % 16 * 4), '=']
  | a :: b :: c :: rest =>
    b64Char (a / 4) :: b64Char (a % 4 * 16 + b / 16) :: b64Char (b % 16 * 4 + c / 64)
      :: b64Char (c % 64) :: base64Encode rest

/-- `getWorkspaceId` (lines 23-32) applied to the first workspace folder's
path: `basename(path) + "_" + base64(path).slice(0, 8)`. -/
def getWorkspaceId (workspacePath : String) : String :=
  let workspaceName := basename workspacePath
  let workspaceHash := String.mk ((base64Encode (pathBytes workspacePath)).take 8)
  workspaceName ++ "_" ++ workspaceHash

/-- A branch-switch suffix: activity signals for the listed (branch, time)
pairs followed by a final focus-loss stop at `tf`. -/
def switchTrace (switches : List (String × Int)) (tf : Int) : List Sig :=
  switches.map (fun p => Sig.activity (some p.1) p.2) ++ [Sig.focusLost tf]

/-- The elapsed-millisecond windows of a switch sequence: from the open
session's start through each switch to the final stop. -/
def intervalsFrom : Int → List (String × Int) → Int → List Int
  | t, [], tf => [tf - t]
  | t, (_, t1) :: rest, tf => (t1 - t) :: intervalsFrom t1 rest tf

/-- Well-formedness of a switch sequence relative to the open session's branch
`b` and start `t`: every switch carries a non-empty branch different from the
previous one and times never decrease through the final stop. -/
def chainOk : String → Int → List (String × Int) → Int → Bool
  | _, t, [], tf => decide (t ≤ tf)
  | b, t, (b1, t1) :: rest, tf =>
    (b1 != "") && (b1 != b) && decide (t ≤ t1) && chainOk b1 t1 rest tf

/-! ### Arithmetic helpers about `Int.fdiv` (floor division by 1000) -/

theorem fdiv_cast (m n : Nat) : Int.fdiv (m : Int) (n : Int) = ((m / n : Nat) : Int) := by
  rw [Int.fdiv_eq_ediv _ (by exact_mod_cast Nat.zero_le n)]
  exact_mod_cast (Int.ofNat_ediv m n).symm

theorem fdiv_pair (a b : Int) (ha : 0 ≤ a) (hb : 0 ≤ b) :
    Int.fdiv a 1000 + Int.fdiv b 1000 ≤ Int.fdiv (a + b) 1000 ∧
    Int.fdiv (a + b) 1000 ≤ Int.fdiv a 1000 + Int.fdiv b 1000 + 1 := by
  obtain ⟨m, rfl⟩ := Int.eq_ofNat_of_zero_le ha
  obtain ⟨n, rfl⟩ := Int.eq_ofNat_of_zero_le hb
  have h1000 : (1000 : Int) = ((1000 : Nat) : Int) := by norm_cast
  have hsum : ((m : Int) + (n : Int)) = (((m + n : Nat)) : Int) := by push_cast; ring
  rw [h1000, hsum, fdiv_cast, fdiv_cast, fdiv_cast]
  constructor
  · exact_mod_cast (by omega : m / 1000 + n / 1000 ≤ (m + n) / 1000)
  · exact_mod_cast (by omega : (m + n) / 1000 ≤ m / 1000 + n / 1000 + 1)

theorem fdiv_nonneg1000 (a : Int) (ha : 0 ≤ a) : 0 ≤ Int.fdiv a 1000 := by
  obtain ⟨m, rfl⟩ := Int.eq_ofNat_of_zero_le ha
  have h1000 : (1000 : Int) = ((1000 : Nat) : Int) := by norm_cast
  rw [h1000, fdiv_cast]
  exact_mod_cast Nat.zero_le _

/-! ### Association-list lemmas -/

theorem lookupA_setA {α : Type} (l : List (String × α)) (k : String) (v : α)
    (key : String) :
    lookupA (setA l k v) key = if k = key then some v else lookupA l key := by
  induction l with
  | nil => simp [setA, lookupA]
  | cons hd tl ih =>
    obtain ⟨k', v'⟩ := hd
    by_cases h1 : k' = k
    · subst h1
      by_cases h2 : k' = key <;> simp [setA, lookupA, h2]
    · by_cases h2 : k' = key
      · subst h2
        simp [setA, lookupA, h1, Ne.symm h1]
      · simp [setA, lookupA, h1, h2, ih]

theorem lookupA_removeA {α : Type} (l : List (String × α)) (k key : String) :
    lookupA (removeA l k) key = if k = key then none else lookupA l key := by
  induction l with
  | nil => simp [removeA, lookupA]
  | cons hd tl ih =>
    obtain ⟨k', v'⟩ := hd
    by_cases h1 : k' = k
    · subst h1
      have hstep : removeA ((k', v') :: tl) k' = removeA tl k' := by
        simp [removeA, List.filter_cons]
      rw [hstep, ih]
      by_cases h2 : k' = key
      · simp [h2]
      · simp [lookupA, h2]
    · have hstep : removeA ((k', v') :: tl) k = (k', v') :: removeA tl k := by
        simp [removeA, List.filter_cons, bne_iff_ne, h1]
      rw [hstep]
      by_cases h2 : k' = key
      · have hk : ¬k = key := fun h => h1 (by rw [h2, ← h])
        simp [lookupA, h2, hk]
      · simp [lookupA, h2, ih]

theorem sum_setA {α : Type} (f : α → Int) (l : List (String × α)) (k : String)
    (v : α) :
    ((setA l k v).map (fun p => f p.2)).sum
      = (l.map (fun p => f p.2)).sum + f v
        - (match lookupA l k with | some a => f a | none => 0) := by
  induction l with
  | nil => simp [setA, lookupA]
  | cons hd tl ih =>
    obtain ⟨k', v'⟩ := hd
    by_cases h1 : k' = k
    · subst h1
      simp [setA, lookupA]
      ring
    · simp [setA, lookupA, h1, ih]
      ring

/-! ### Lemmas about `updateBranchTime` -/

theorem lookupA_updateBranchTime_other (led : Ledger) (w b : String) (sec : Int)
    (w' : String) (hw : w' ≠ w) :
    lookupA (updateBranchTime led w b sec) w' = lookupA led w' := by
  unfold updateBranchTime
  by_cases h : w = ""
  · simp [h]
  · simp [h, lookupA_setA, Ne.symm hw]

theorem lookup2_updateBranchTime_self (led : Ledger) (w b : String) (sec : Int)
    (hw : w ≠ "") :
    lookup2 (updateBranchTime led w b sec) w b = some (val2 led w b + sec) := by
  unfold updateBranchTime
  rw [if_neg hw]
  cases hled : lookupA led w with
  | none => simp [lookup2, lookupA_setA, hled, val2, lookupA]
  | some m => simp [lookup2, lookupA_setA, hled, val2]

theorem lookup2_updateBranchTime_other_branch (led : Ledger) (w b : String)
    (sec : Int) (hw : w ≠ "") (b' : String) (hb : b' ≠ b) :
    lookup2 (updateBranchTime led w b sec) w b' = lookup2 led w b' := by
  unfold updateBranchTime
  rw [if_neg hw]
  cases hled : lookupA led w with
  | none => simp [lookup2, lookupA_setA, hled, Ne.symm hb, lookupA]
  | some m => simp [lookup2, lookupA_setA, hled, Ne.symm hb]

theorem val2_updateBranchTime_mono (led : Ledger) (w b : String) (sec : Int)
    (hsec : 0 ≤ sec) (w' b' : String) :
    val2 led w' b' ≤ val2 (updateBranchTime led w b sec) w' b' := by
  by_cases hw : w = ""
  · simp [updateBranchTime, hw]
  · by_cases hw' : w' = w
    · subst hw'
      by_cases hb' : b' = b
      · subst hb'
        unfold val2
        rw [lookup2_updateBranchTime_self _ _ _ _ hw]
        simp only [Option.getD_some]
        exact le_add_of_nonneg_right hsec
      · unfold val2
        rw [lookup2_updateBranchTime_other_branch _ _ _ _ hw _ hb']
    · unfold val2 lookup2
      rw [lookupA_updateBranchTime_other _ _ _ _ _ hw']

theorem ledgerSum_updateBranchTime (led : Ledger) (w b : String) (sec : Int)
    (hw : w ≠ "") :
    ledgerSum (updateBranchTime led w b sec) = ledgerSum led + sec := by
  unfold updateBranchTime ledgerSum
  rw [if_neg hw]
  have houter := sum_setA (fun m => innerSum m) led w
    (setA ((lookupA led w).getD []) b
      (((lookupA ((lookupA led w).getD []) b).getD 0) + sec))
  have hinner := sum_setA (fun x : Int => x) ((lookupA led w).getD []) b
    (((lookupA ((lookupA led w).getD []) b).getD 0) + sec)
  simp only [] at houter hinner
  rw [houter]
  have hin : innerSum (setA ((lookupA led w).getD []) b
      (((lookupA ((lookupA led w).getD []) b).getD 0) + sec))
      = innerSum ((lookupA led w).getD []) + sec := by
    unfold innerSum
    have : ∀ m : List (String × Int), (m.map Prod.snd).sum
        = (m.map (fun p => p.2)).sum := by intro m; rfl
    rw [this, this, hinner]
    cases hlb : lookupA ((lookupA led w).getD []) b with
    | none => simp [hlb]
    | some a => simp [hlb]; ring
  rw [hin]
  cases hled : lookupA led w with
  | none => simp [hled, innerSum]
  | some m => simp [hled]; ring

/-! ### State-machine step lemmas -/

theorem stopAndLogTime_not_tracking (s : TrackerState) (clean : Bool) (now : Int)
    (h : s.trackingStart = none) : stopAndLogTime s clean now = s := by
  cases hcb : s.currentBranch <;> simp [stopAndLogTime, h, hcb]

theorem stopAndLogTime_false_spec (s : TrackerState) (now t : Int) (b : String)
    (hts : s.trackingStart = some t) (htz : t ≠ 0)
    (hcb : s.currentBranch = some b) (hbz : b ≠ "") :
    stopAndLogTime s false now =
      { s with branchTimeMap := updateBranchTime s.branchTimeMap s.currentWorkspace b
                 (Int.fdiv (now - t) 1000)
               trackingStart := none
               currentBranch := none } := by
  simp [stopAndLogTime, hts, hcb, htz, hbz]

theorem stopAndLogTime_true_spec (s : TrackerState) (now t : Int) (b : String)
    (hts : s.trackingStart = some t) (htz : t ≠ 0)
    (hcb : s.currentBranch = some b) (hbz : b ≠ "") :
    stopAndLogTime s true now =
      { s with branchTimeMap := updateBranchTime s.branchTimeMap s.currentWorkspace b
                 (Int.fdiv (now - t) 1000)
               trackingStart := none
               currentBranch := none
               storedLastTrackedBranch := none
               storedLastTrackingStart := none
               storedCurrentWorkspace := none } := by
  simp [stopAndLogTime, hts, hcb, htz, hbz, clearSessionData]

theorem startTracking_fresh (s : TrackerState) (b : String) (now : Int)
    (hbz : b ≠ "") (hts : s.trackingStart = none) :
    startTrackingIfBranchFound s (some b) now =
      { s with currentBranch := some b
               lastTrackedBranch := some b
               trackingStart := some now
               storedLastTrackedBranch := some b
               storedLastTrackingStart := some now
               storedCurrentWorkspace := some s.currentWorkspace } := by
  have hstop : stopAndLogTime s false now = s := stopAndLogTime_not_tracking s false now hts
  simp [startTrackingIfBranchFound, hbz, hts, hstop]

theorem startTracking_same (s : TrackerState) (b : String) (now t : Int)
    (hbz : b ≠ "") (hlt : s.lastTrackedBranch = some b)
    (hts : s.trackingStart = some t) (htz : t ≠ 0) :
    startTrackingIfBranchFound s (some b) now = s := by
  simp [startTrackingIfBranchFound, hbz, hlt, hts, htz]

theorem startTracking_switch (s : TrackerState) (b1 : String) (now t : Int)
    (b : String) (hb1z : b1 ≠ "") (hne : b1 ≠ b)
    (hlt : s.lastTrackedBranch = some b) (hts : s.trackingStart = some t)
    (htz : t ≠ 0) (hcb : s.currentBranch = some b) (hbz : b ≠ "") :
    startTrackingIfBranchFound s (some b1) now =
      { s with branchTimeMap := updateBranchTime s.branchTimeMap s.currentWorkspace b
                 (Int.fdiv (now - t) 1000)
               currentBranch := some b1
               lastTrackedBranch := some b1
               trackingStart := some now
               storedLastTrackedBranch := some b1
               storedLastTrackingStart := some now
               storedCurrentWorkspace := some s.currentWorkspace } := by
  have hstop := stopAndLogTime_false_spec s now t b hts htz hcb hbz
  simp [startTrackingIfBranchFound, hb1z, hlt, Ne.symm hne, hstop]

theorem stopAndLogTime_false_marker (s : TrackerState) (now : Int) :
    (stopAndLogTime s false now).storedLastTrackedBranch = s.storedLastTrackedBranch
    ∧ (stopAndLogTime s false now).storedLastTrackingStart = s.storedLastTrackingStart
    ∧ (stopAndLogTime s false now).storedCurrentWorkspace = s.storedCurrentWorkspace := by
  cases hts : s.trackingStart <;> cases hcb : s.currentBranch <;>
    simp [stopAndLogTime, hts, hcb]
  split_ifs <;> simp

/-! ### Claim theorems -/

/-- C1: a persisted session marker for the current workspace is resumed at
startup, with its original start time preserved, exactly when its age
`now - startedAt` is strictly under the 10-minute `MAX_SESSION_AGE_MS`;
at or beyond that age recovery does not resume and clears the marker. -/
theorem C1_recovery_window (s : TrackerState) (now t : Int) (b : String)
    (hsb : s.storedLastTrackedBranch = some b) (hbz : b ≠ "")
    (hst : s.storedLastTrackingStart = some t) (htz : t ≠ 0)
    (hsw : s.storedCurrentWorkspace = some s.currentWorkspace)
    (hidle : s.trackingStart = none) :
    (now - t < MAX_SESSION_AGE_MS →
      recoverStep s now =
        { s with currentBranch := some b
                 lastTrackedBranch := some b
                 trackingStart := some t })
    ∧ (MAX_SESSION_AGE_MS ≤ now - t → recoverStep s now = clearSessionData s)
    ∧ ((recoverStep s now).trackingStart = some t ↔ now - t < MAX_SESSION_AGE_MS) := by
  obtain ⟨ts, cb, lt, map, cw, sb, st, sw⟩ := s
  simp only at hsb hst hsw hidle ⊢
  subst hsb hst hsw hidle
  simp only [recoverStep]
  rw [if_neg (by simp [hbz, htz])]
  refine ⟨fun h => by rw [if_pos h], fun h => by rw [if_neg (not_lt.mpr h)], ?_⟩
  by_cases h : now - t < MAX_SESSION_AGE_MS
  · simp [if_pos h, h]
  · simp [if_neg h, h, clearSessionData]

/-- C1 witness: a marker aged 9 minutes is resumed with its start time intact;
one aged 11 minutes is not resumed and its marker is cleared. -/
theorem C1_recovery_window_witness :
    (recoverStep
        { initState "proj_X" with
            storedLastTrackedBranch := some "main"
            storedLastTrackingStart := some 60000
            storedCurrentWorkspace := some "proj_X" } 600000).trackingStart
      = some 60000
    ∧ (recoverStep
        { initState "proj_X" with
            storedLastTrackedBranch := some "main"
            storedLastTrackingStart := some 60000
            storedCurrentWorkspace := some "proj_X" } 720000).storedLastTrackedBranch
      = none := by
  constructor
  · have h := (C1_recovery_window
      { initState "proj_X" with
          storedLastTrackedBranch := some "main"
          storedLastTrackingStart := some 60000
          storedCurrentWorkspace := some "proj_X" } 600000 60000 "main"
      rfl (by decide) rfl (by decide) rfl rfl).1 (by decide)
    rw [h]
  · have h := (C1_recovery_window
      { initState "proj_X" with
          storedLastTrackedBranch := some "main"
          storedLastTrackingStart := some 60000
          storedCurrentWorkspace := some "proj_X" } 720000 60000 "main"
      rfl (by decide) rfl (by decide) rfl rfl).2.1 (by decide)
    rw [h]
    rfl

/-- C3: while a session is open on branch `b`, any number of further activity
or focus-gained signals whose branch resolution still yields `b` leave the
whole tracker state unchanged: `startedAt` keeps its value, no commit is made,
and the session is not restarted. -/
theorem C3_same_branch_idempotent (s : TrackerState) (b : String) (t : Int)
    (times : List Int)
    (hts : s.trackingStart = some t) (htz : t ≠ 0)
    (_hcb : s.currentBranch = some b) (hlt : s.lastTrackedBranch = some b)
    (hbz : b ≠ "") :
    run s (times.map (fun n => Sig.activity (some b) n)) = s := by
  induction times with
  | nil => rfl
  | cons n rest ih =>
    simp only [List.map_cons, run, List.foldl_cons]
    rw [show step s (Sig.activity (some b) n) = s from
      startTracking_same s b n t hbz hlt hts htz]
    exact ih

/-- C3 witness: two repeated same-branch activity signals on an open session
leave the state unchanged. -/
theorem C3_same_branch_idempotent_witness :
    run { initState "w" with trackingStart := some 5
                             currentBranch := some "dev"
                             lastTrackedBranch := some "dev" }
        ([7, 9].map (fun n => Sig.activity (some "dev") n))
      = { initState "w" with trackingStart := some 5
                             currentBranch := some "dev"
                             lastTrackedBranch := some "dev" } :=
  C3_same_branch_idempotent _ "dev" 5 [7, 9] rfl (by decide) rfl rfl (by decide)

/-- C4: stopping an open session at time `now` commits exactly
`floor((now - startedAt) / 1000)` seconds, added onto the ledger entry of the
session's workspace and branch (the entry is created when absent, and the
commit happens even when the elapsed amount is zero). -/
theorem C4_commit_on_stop (s : TrackerState) (t : Int) (b : String) (now : Int)
    (clean : Bool)
    (hts : s.trackingStart = some t) (htz : t ≠ 0)
    (hcb : s.currentBranch = some b) (hbz : b ≠ "")
    (hwz : s.currentWorkspace ≠ "") :
    lookup2 (stopAndLogTime s clean now).branchTimeMap s.currentWorkspace b
      = some (val2 s.branchTimeMap s.currentWorkspace b + Int.fdiv (now - t) 1000) := by
  cases clean
  · rw [stopAndLogTime_false_spec s now t b hts htz hcb hbz]
    exact lookup2_updateBranchTime_self _ _ _ _ hwz
  · rw [stopAndLogTime_true_spec s now t b hts htz hcb hbz]
    exact lookup2_updateBranchTime_self _ _ _ _ hwz

/-- C4 witness: a stop with zero elapsed time still performs the commit,
creating the absent ledger entry with value 0. -/
theorem C4_commit_on_stop_witness :
    lookup2 (stopAndLogTime
        { initState "w1" with trackingStart := some 42000
                              currentBranch := some "main"
                              lastTrackedBranch := some "main" }
        false 42000).branchTimeMap "w1" "main" = some 0 := by
  have h := C4_commit_on_stop
    { initState "w1" with trackingStart := some 42000
                          currentBranch := some "main"
                          lastTrackedBranch := some "main" }
    42000 "main" 42000 false rfl (by decide) rfl (by decide) (by decide)
  simpa using h

/-- C5 counterexample: with a persisted marker whose workspace `proj_A`
differs from the current workspace `proj_B`, recovery leaves the marker in
storage, so the claim that the stale marker is cleared is false. -/
theorem C5_mismatch_counterexample :
    ¬((recoverStep
        { initState "proj_B" with
            storedLastTrackedBranch := some "feature"
            storedLastTrackingStart := some 1000
            storedCurrentWorkspace := some "proj_A" } 2000).storedLastTrackedBranch
          = none
      ∧ (recoverStep
        { initState "proj_B" with
            storedLastTrackedBranch := some "feature"
            storedLastTrackingStart := some 1000
            storedCurrentWorkspace := some "proj_A" } 2000).storedLastTrackingStart
          = none) := by
  decide

/-- C5 amended: when the marker's workspace differs from the current
workspace, recovery neither resumes nor touches anything: the whole state,
including the stale marker, is returned unchanged (the marker is NOT cleared
from storage). -/
theorem C5_mismatch_no_clear (s : TrackerState) (now : Int)
    (hsw : s.storedCurrentWorkspace ≠ some s.currentWorkspace) :
    recoverStep s now = s := by
  cases hsb : s.storedLastTrackedBranch <;>
    cases hst : s.storedLastTrackingStart <;>
      simp [recoverStep, hsb, hst, hsw]

/-- C5 witness: a concrete mismatched marker survives recovery untouched. -/
theorem C5_mismatch_no_clear_witness :
    recoverStep
      { initState "proj_B" with
          storedLastTrackedBranch := some "dev"
          storedLastTrackingStart := some 500
          storedCurrentWorkspace := some "proj_C" } 900
      = { initState "proj_B" with
            storedLastTrackedBranch := some "dev"
            storedLastTrackingStart := some 500
            storedCurrentWorkspace := some "proj_C" } :=
  C5_mismatch_no_clear _ 900 (by decide)

/-- C6: committing time under workspace `A` leaves every other workspace's
ledger entries untouched (even with identical branch names), and the confirmed
clear of the current workspace `A` removes exactly `A`'s entries, leaving
other workspaces' entries and the persisted session marker (in particular one
recorded for a different workspace) unchanged. -/
theorem C6_workspace_isolation (led : Ledger) (A b : String) (sec : Int)
    (B : String) (s : TrackerState) (hBA : B ≠ A) (hsw : s.currentWorkspace = A) :
    lookupA (updateBranchTime led A b sec) B = lookupA led B
    ∧ lookupA (clearWorkspaceTimeData s true).branchTimeMap B
        = lookupA s.branchTimeMap B
    ∧ lookupA (clearWorkspaceTimeData s true).branchTimeMap A = none
    ∧ (clearWorkspaceTimeData s true).storedLastTrackedBranch
        = s.storedLastTrackedBranch
    ∧ (clearWorkspaceTimeData s true).storedLastTrackingStart
        = s.storedLastTrackingStart
    ∧ (clearWorkspaceTimeData s true).storedCurrentWorkspace
        = s.storedCurrentWorkspace := by
  refine ⟨lookupA_updateBranchTime_other _ _ _ _ _ hBA, ?_, ?_, rfl, rfl, rfl⟩
  · simp [clearWorkspaceTimeData, lookupA_removeA, hsw, Ne.symm hBA]
  · simp [clearWorkspaceTimeData, lookupA_removeA, hsw]

/-- C6 witness: with both workspaces holding a branch named `main`, a commit
under `wsA` and a confirmed clear of `wsA` leave `wsB`'s entry and a marker
recorded for `wsB` untouched, while the clear removes `wsA`'s entry. -/
theorem C6_workspace_isolation_witness :
    lookupA (updateBranchTime [("wsA", [("main", 10)]), ("wsB", [("main", 7)])]
        "wsA" "main" 5) "wsB" = some [("main", 7)]
    ∧ lookupA (clearWorkspaceTimeData
        { initState "wsA" with
            branchTimeMap := [("wsA", [("main", 10)]), ("wsB", [("main", 7)])]
            storedCurrentWorkspace := some "wsB" } true).branchTimeMap "wsB"
        = some [("main", 7)]
    ∧ lookupA (clearWorkspaceTimeData
        { initState "wsA" with
            branchTimeMap := [("wsA", [("main", 10)]), ("wsB", [("main", 7)])]
            storedCurrentWorkspace := some "wsB" } true).branchTimeMap "wsA"
        = none
    ∧ (clearWorkspaceTimeData
        { initState "wsA" with
            branchTimeMap := [("wsA", [("main", 10)]), ("wsB", [("main", 7)])]
            storedCurrentWorkspace := some "wsB" } true).storedCurrentWorkspace
        = some "wsB" := by
  have h := C6_workspace_isolation
    [("wsA", [("main", 10)]), ("wsB", [("main", 7)])] "wsA" "main" 5 "wsB"
    { initState "wsA" with
        branchTimeMap := [("wsA", [("main", 10)]), ("wsB", [("main", 7)])]
        storedCurrentWorkspace := some "wsB" }
    (by decide) rfl
  refine ⟨?_, ?_, h.2.2.1, ?_⟩
  · rw [h.1]; decide
  · rw [h.2.1]; decide
  · rw [h.2.2.2.2.2]

/-- C7: the stored total for any (workspace, branch) pair never decreases
under any signal, provided the clock did not run backwards relative to the
open session's start, and the signal is not a confirmed clear of that very
workspace. -/
theorem C7_ledger_monotone (s : TrackerState) (op : Sig) (w b : String)
    (hclock : ∀ t n, s.trackingStart = some t → sigTime op = some n → t ≤ n)
    (hclear : op = Sig.clearData true → s.currentWorkspace ≠ w) :
    val2 s.branchTimeMap w b ≤ val2 (step s op).branchTimeMap w b := by
  have hstop : ∀ clean now, (∀ t, s.trackingStart = some t → t ≤ now) →
      val2 s.branchTimeMap w b ≤ val2 (stopAndLogTime s clean now).branchTimeMap w b := by
    intro clean now hcl
    cases hts : s.trackingStart with
    | none =>
      rw [stopAndLogTime_not_tracking s clean now hts]
    | some t =>
      cases hcb : s.currentBranch with
      | none => cases clean <;> simp [stopAndLogTime, hts, hcb]
      | some br =>
        by_cases hg : t = 0 ∨ br = ""
        · cases clean <;> simp [stopAndLogTime, hts, hcb, hg]
        · push_neg at hg
          have hdur : 0 ≤ Int.fdiv (now - t) 1000 :=
            fdiv_nonneg1000 _ (by have := hcl t hts; omega)
          cases clean
          · rw [stopAndLogTime_false_spec s now t br hts hg.1 hcb hg.2]
            exact val2_updateBranchTime_mono _ _ _ _ hdur _ _
          · rw [stopAndLogTime_true_spec s now t br hts hg.1 hcb hg.2]
            exact val2_updateBranchTime_mono _ _ _ _ hdur _ _
  cases op with
  | activity r now =>
    have hcl : ∀ t, s.trackingStart = some t → t ≤ now :=
      fun t ht => hclock t now ht rfl
    cases r with
    | none => simp [step, startTrackingIfBranchFound]
    | some br =>
      by_cases hbz : br = ""
      · simp [step, startTrackingIfBranchFound, hbz]
      · by_cases hsame : s.lastTrackedBranch = some br ∧ ¬s.trackingStart.getD 0 = 0
        · simp [step, startTrackingIfBranchFound, hbz, hsame]
        · have := hstop false now hcl
          simp only [step, startTrackingIfBranchFound, hbz, if_neg hsame, if_false]
          simpa using this
  | focusLost now => exact hstop false now (fun t ht => hclock t now ht rfl)
  | idleTimeout now => exact hstop false now (fun t ht => hclock t now ht rfl)
  | shutdown now => exact hstop true now (fun t ht => hclock t now ht rfl)
  | clearData c =>
    cases c with
    | false => simp [step, clearWorkspaceTimeData]
    | true =>
      have hw : s.currentWorkspace ≠ w := hclear rfl
      simp only [step, clearWorkspaceTimeData, if_pos]
      unfold val2 lookup2
      rw [lookupA_removeA]
      rw [if_neg hw]

/-- C7 witness: a focus-loss stop on an open session only increases the stored
total of the session's branch. -/
theorem C7_ledger_monotone_witness :
    val2 [("w", [("m", 5)])] "w" "m"
      ≤ val2 (step
          { initState "w" with
              trackingStart := some 100
              currentBranch := some "m"
              lastTrackedBranch := some "m"
              branchTimeMap := [("w", [("m", 5)])] }
          (Sig.focusLost 2100)).branchTimeMap "w" "m" := by
  exact C7_ledger_monotone
    { initState "w" with
        trackingStart := some 100
        currentBranch := some "m"
        lastTrackedBranch := some "m"
        branchTimeMap := [("w", [("m", 5)])] }
    (Sig.focusLost 2100) "w" "m"
    (by intro t n ht hn; simp [sigTime] at ht hn; omega)
    (by intro h; cases h)

/-- C8 counterexample: the workspace identity is the basename plus the first
eight base64 characters of the path — an encoding of the path's first six
bytes, not a hash — so these two distinct project roots receive the same
identity, refuting collision resistance for distinct paths. -/
theorem C8_workspace_id_counterexample :
    getWorkspaceId "/home/u/alpha/app" = getWorkspaceId "/home/u/beta/app"
    ∧ "/home/u/alpha/app" ≠ "/home/u/beta/app" := by
  decide

theorem base64Encode_take4 :
    ∀ r : List Nat, (base64Encode r).take 4 = (base64Encode (r.take 3)).take 4
  | [] => rfl
  | [_] => rfl
  | [_, _] => rfl
  | _ :: _ :: _ :: _ => rfl

theorem base64Encode_take8 :
    ∀ r : List Nat, (base64Encode r).take 8 = (base64Encode (r.take 6)).take 8
  | [] => rfl
  | [_] => rfl
  | [_, _] => rfl
  | a :: b :: c :: rest => by
    show b64Char (a / 4) :: b64Char (a % 4 * 16 + b / 16)
          :: b64Char (b % 16 * 4 + c / 64) :: b64Char (c % 64)
          :: (base64Encode rest).take 4
        = b64Char (a / 4) :: b64Char (a % 4 * 16 + b / 16)
          :: b64Char (b % 16 * 4 + c / 64) :: b64Char (c % 64)
          :: (base64Encode (rest.take 3)).take 4
    exact congrArg
      (fun l => b64Char (a / 4) :: b64Char (a % 4 * 16 + b / 16)
        :: b64Char (b % 16 * 4 + c / 64) :: b64Char (c % 64) :: l)
      (base64Encode_take4 rest)

/-- C8 amended: the workspace identity is deterministic (a pure function of
the path), but its suffix is the first eight base64 characters of the path —
an encoding of the path's first SIX bytes, not a collision-resistant hash —
so any two paths sharing their basename and their first six bytes receive the
same identity. -/
theorem C8_workspace_id_amended :
    (∀ p q : String, p = q → getWorkspaceId p = getWorkspaceId q)
    ∧ (∀ p q : String, basename p = basename q →
        (pathBytes p).take 6 = (pathBytes q).take 6 →
        getWorkspaceId p = getWorkspaceId q) := by
  refine ⟨fun p q h => by rw [h], fun p q hb hp => ?_⟩
  show basename p ++ "_" ++ String.mk ((base64Encode (pathBytes p)).take 8)
      = basename q ++ "_" ++ String.mk ((base64Encode (pathBytes q)).take 8)
  rw [hb, base64Encode_take8 (pathBytes p), base64Encode_take8 (pathBytes q), hp]

/-- C8 witness: two distinct roots sharing a basename and their first six
bytes collide deterministically. -/
theorem C8_workspace_id_amended_witness :
    basename "/srv/p1/tool" = basename "/srv/p2/tool"
    ∧ (pathBytes "/srv/p1/tool").take 6 = (pathBytes "/srv/p2/tool").take 6
    ∧ getWorkspaceId "/srv/p1/tool" = getWorkspaceId "/srv/p2/tool" :=
  ⟨by decide, by decide,
    C8_workspace_id_amended.2 "/srv/p1/tool" "/srv/p2/tool" (by decide) (by decide)⟩

/-- C10: a stop that is not flagged as a clean exit — which is what focus loss
and the idle timeout trigger — leaves all three persisted session-marker slots
exactly as they were, so the marker still records the original session. -/
theorem C10_marker_survives_unclean_stop (s : TrackerState) (now : Int) :
    ((step s (Sig.focusLost now)).storedLastTrackedBranch = s.storedLastTrackedBranch
      ∧ (step s (Sig.focusLost now)).storedLastTrackingStart = s.storedLastTrackingStart
      ∧ (step s (Sig.focusLost now)).storedCurrentWorkspace = s.storedCurrentWorkspace)
    ∧ ((step s (Sig.idleTimeout now)).storedLastTrackedBranch = s.storedLastTrackedBranch
      ∧ (step s (Sig.idleTimeout now)).storedLastTrackingStart = s.storedLastTrackingStart
      ∧ (step s (Sig.idleTimeout now)).storedCurrentWorkspace = s.storedCurrentWorkspace) :=
  ⟨stopAndLogTime_false_marker s now, stopAndLogTime_false_marker s now⟩

/-! ### Switch-sequence accounting (C2) -/

theorem run_cons (s : TrackerState) (x : Sig) (l : List Sig) :
    run s (x :: l) = run (step s x) l := rfl

theorem run_nil (s : TrackerState) : run s [] = s := rfl

theorem switchTrace_cons (b1 : String) (t1 : Int) (rest : List (String × Int))
    (tf : Int) :
    switchTrace ((b1, t1) :: rest) tf
      = Sig.activity (some b1) t1 :: switchTrace rest tf := rfl

theorem chainOk_cons (b : String) (t : Int) (b1 : String) (t1 : Int)
    (rest : List (String × Int)) (tf : Int) :
    chainOk b t ((b1, t1) :: rest) tf = true ↔
      b1 ≠ "" ∧ b1 ≠ b ∧ t ≤ t1 ∧ chainOk b1 t1 rest tf = true := by
  simp [chainOk, and_assoc]

theorem intervalsFrom_sum (switches : List (String × Int)) :
    ∀ t tf : Int, (intervalsFrom t switches tf).sum = tf - t := by
  induction switches with
  | nil => intro t tf; simp [intervalsFrom]
  | cons p rest ih =>
    intro t tf
    obtain ⟨b1, t1⟩ := p
    simp [intervalsFrom, ih t1 tf]

theorem intervalsFrom_length (switches : List (String × Int)) :
    ∀ t tf : Int, (intervalsFrom t switches tf).length = switches.length + 1 := by
  induction switches with
  | nil => intro t tf; rfl
  | cons p rest ih =>
    intro t tf
    obtain ⟨b1, t1⟩ := p
    simp [intervalsFrom, ih t1 tf]

theorem intervalsFrom_nonneg (switches : List (String × Int)) :
    ∀ (b : String) (t tf : Int), chainOk b t switches tf = true →
      ∀ d ∈ intervalsFrom t switches tf, 0 ≤ d := by
  induction switches with
  | nil =>
    intro b t tf h
    simp [chainOk] at h
    simp [intervalsFrom]
    omega
  | cons p rest ih =>
    intro b t tf h
    obtain ⟨b1, t1⟩ := p
    rw [chainOk_cons] at h
    obtain ⟨h1, h2, h3, h4⟩ := h
    intro d hd
    simp [intervalsFrom] at hd
    rcases hd with rfl | hd
    · omega
    · exact ih b1 t1 tf h4 d hd

theorem fdiv_sum_bounds :
    ∀ ds : List Int, (∀ d ∈ ds, 0 ≤ d) → ds ≠ [] →
      (ds.map (fun d => Int.fdiv d 1000)).sum ≤ Int.fdiv ds.sum 1000
      ∧ Int.fdiv ds.sum 1000
          ≤ (ds.map (fun d => Int.fdiv d 1000)).sum + ((ds.length : Int) - 1)
  | [], _, hne => absurd rfl hne
  | [d], _, _ => by simp
  | d :: e :: rest, h, _ => by
    have ihr := fdiv_sum_bounds (e :: rest)
      (fun x hx => h x (List.mem_cons_of_mem _ hx)) (by simp)
    have hd : 0 ≤ d := h d (List.mem_cons_self _ _)
    have hs : 0 ≤ (e :: rest).sum :=
      List.sum_nonneg (fun x hx => h x (List.mem_cons_of_mem _ hx))
    have hp := fdiv_pair d (e :: rest).sum hd hs
    simp only [List.map_cons, List.sum_cons, List.length_cons] at *
    constructor
    · linarith [ihr.1, hp.1]
    · have := ihr.2
      push_cast at this ⊢
      linarith [hp.2]

theorem run_switchTrace_sum (switches : List (String × Int)) :
    ∀ (t : Int) (b : String) (map : Ledger) (cw : String)
      (sb : Option String) (st : Option Int) (sw : Option String) (tf : Int),
    0 < t → b ≠ "" → cw ≠ "" → chainOk b t switches tf = true →
    ledgerSum (run (TrackerState.mk (some t) (some b) (some b) map cw sb st sw)
        (switchTrace switches tf)).branchTimeMap
      = ledgerSum map
        + ((intervalsFrom t switches tf).map (fun d => Int.fdiv d 1000)).sum := by
  induction switches with
  | nil =>
    intro t b map cw sb st sw tf ht0 hbz hwz hchain
    have hstop : step (TrackerState.mk (some t) (some b) (some b) map cw sb st sw)
        (Sig.focusLost tf)
        = TrackerState.mk none none (some b)
            (updateBranchTime map cw b (Int.fdiv (tf - t) 1000)) cw sb st sw :=
      stopAndLogTime_false_spec
        (TrackerState.mk (some t) (some b) (some b) map cw sb st sw)
        tf t b rfl (by omega) rfl hbz
    rw [show switchTrace [] tf = [Sig.focusLost tf] from rfl, run_cons, hstop, run_nil]
    show ledgerSum (updateBranchTime map cw b (Int.fdiv (tf - t) 1000)) = _
    rw [ledgerSum_updateBranchTime _ _ _ _ hwz]
    simp [intervalsFrom]
  | cons p rest ih =>
    intro t b map cw sb st sw tf ht0 hbz hwz hchain
    obtain ⟨b1, t1⟩ := p
    rw [chainOk_cons] at hchain
    obtain ⟨h1, h2, h3, h4⟩ := hchain
    have hstep : step (TrackerState.mk (some t) (some b) (some b) map cw sb st sw)
        (Sig.activity (some b1) t1)
        = TrackerState.mk (some t1) (some b1) (some b1)
            (updateBranchTime map cw b (Int.fdiv (t1 - t) 1000)) cw
            (some b1) (some t1) (some cw) :=
      startTracking_switch
        (TrackerState.mk (some t) (some b) (some b) map cw sb st sw)
        b1 t1 t b h1 h2 rfl rfl (by omega) rfl hbz
    rw [switchTrace_cons, run_cons, hstep,
      ih t1 b1 (updateBranchTime map cw b (Int.fdiv (t1 - t) 1000)) cw
        (some b1) (some t1) (some cw) tf (by omega) h1 hwz h4,
      ledgerSum_updateBranchTime _ _ _ _ hwz]
    simp only [intervalsFrom, List.map_cons, List.sum_cons]
    ring

/-- C2 counterexample: three branch switches 999 ms apart commit 0 seconds
each, while `now - firstSessionStart` is 2997 ms (2 seconds under floor
rounding), so the committed sum is NOT within one second of the elapsed
time. -/
theorem C2_switch_sum_counterexample :
    ledgerSum (run (initState "w")
        [Sig.activity (some "a") 1, Sig.activity (some "b") 1000,
         Sig.activity (some "c") 1999, Sig.focusLost 2998]).branchTimeMap = 0
    ∧ Int.fdiv (2998 - 1) 1000 = 2
    ∧ ¬(Int.fdiv (2998 - 1) 1000
          - ledgerSum (run (initState "w")
              [Sig.activity (some "a") 1, Sig.activity (some "b") 1000,
               Sig.activity (some "c") 1999, Sig.focusLost 2998]).branchTimeMap
        ≤ 1) := by
  decide

/-- C2 amended: over any uninterrupted switch sequence each switch commits the
old branch before the new window opens, and the total committed seconds equal
`floor((now - firstSessionStart)/1000)` to within `k - 1` seconds from below,
where `k = switches + 1` is the number of commits; the committed sum never
exceeds the floored elapsed total.  (The claimed ±1 bound holds only for at
most two commits.) -/
theorem C2_switch_sum_bounds (cb lt : Option String) (map : Ledger) (cw : String)
    (sb : Option String) (st : Option Int) (sw : Option String)
    (b0 : String) (t0 : Int) (switches : List (String × Int)) (tf : Int)
    (hwz : cw ≠ "") (hbz : b0 ≠ "") (ht0 : 0 < t0)
    (hchain : chainOk b0 t0 switches tf = true) :
    Int.fdiv (tf - t0) 1000 - (switches.length : Int)
      ≤ ledgerSum (run (TrackerState.mk none cb lt map cw sb st sw)
          (Sig.activity (some b0) t0 :: switchTrace switches tf)).branchTimeMap
        - ledgerSum map
    ∧ ledgerSum (run (TrackerState.mk none cb lt map cw sb st sw)
          (Sig.activity (some b0) t0 :: switchTrace switches tf)).branchTimeMap
        - ledgerSum map
      ≤ Int.fdiv (tf - t0) 1000 := by
  have hstart : step (TrackerState.mk none cb lt map cw sb st sw)
      (Sig.activity (some b0) t0)
      = TrackerState.mk (some t0) (some b0) (some b0) map cw
          (some b0) (some t0) (some cw) :=
    startTracking_fresh (TrackerState.mk none cb lt map cw sb st sw) b0 t0 hbz rfl
  rw [run_cons, hstart,
    run_switchTrace_sum switches t0 b0 map cw (some b0) (some t0) (some cw) tf
      ht0 hbz hwz hchain]
  have hnn := intervalsFrom_nonneg switches b0 t0 tf hchain
  have hne : intervalsFrom t0 switches tf ≠ [] := by
    cases switches <;> simp [intervalsFrom]
  have hb := fdiv_sum_bounds (intervalsFrom t0 switches tf) hnn hne
  rw [intervalsFrom_sum switches t0 tf, intervalsFrom_length switches t0 tf] at hb
  have h2 := hb.2
  push_cast at h2
  constructor
  · linarith [h2]
  · linarith [hb.1]

/-- C9: starting Idle with an empty ledger at session start `T`: the start
opens a session on `main`; a same-branch activity signal at `T+100s` changes
nothing and commits nothing; focus loss at `T+300s` commits 300 seconds;
focus gain plus activity at `T+400s` opens a new session with
`startedAt = T+400s`; focus loss at `T+450s` commits 50 more seconds; the
final ledger holds exactly `main - 350` for the workspace. -/
theorem C9_end_to_end (T : Int) (hT : 0 < T) :
    run (TrackerState.mk none none none [] "ws" none none none)
        [Sig.activity (some "main") T, Sig.activity (some "main") (T + 100000)]
      = run (TrackerState.mk none none none [] "ws" none none none)
          [Sig.activity (some "main") T]
    ∧ (run (TrackerState.mk none none none [] "ws" none none none)
        [Sig.activity (some "main") T, Sig.activity (some "main") (T + 100000),
         Sig.focusLost (T + 300000)]).branchTimeMap = [("ws", [("main", 300)])]
    ∧ (run (TrackerState.mk none none none [] "ws" none none none)
        [Sig.activity (some "main") T, Sig.activity (some "main") (T + 100000),
         Sig.focusLost (T + 300000),
         Sig.activity (some "main") (T + 400000)]).trackingStart
        = some (T + 400000)
    ∧ (run (TrackerState.mk none none none [] "ws" none none none)
        [Sig.activity (some "main") T, Sig.activity (some "main") (T + 100000),
         Sig.focusLost (T + 300000), Sig.activity (some "main") (T + 400000),
         Sig.activity (some "main") (T + 400000),
         Sig.focusLost (T + 450000)]).branchTimeMap
        = [("ws", [("main", 350)])] := by
  have hstart : step (TrackerState.mk none none none [] "ws" none none none)
      (Sig.activity (some "main") T)
      = TrackerState.mk (some T) (some "main") (some "main") [] "ws"
          (some "main") (some T) (some "ws") :=
    startTracking_fresh (TrackerState.mk none none none [] "ws" none none none)
      "main" T (by decide) rfl
  have hsame1 : step (TrackerState.mk (some T) (some "main") (some "main") [] "ws"
        (some "main") (some T) (some "ws"))
      (Sig.activity (some "main") (T + 100000))
      = TrackerState.mk (some T) (some "main") (some "main") [] "ws"
          (some "main") (some T) (some "ws") :=
    startTracking_same (TrackerState.mk (some T) (some "main") (some "main") [] "ws"
        (some "main") (some T) (some "ws"))
      "main" (T + 100000) T (by decide) rfl rfl (by omega)
  have hstop1 : step (TrackerState.mk (some T) (some "main") (some "main") [] "ws"
        (some "main") (some T) (some "ws")) (Sig.focusLost (T + 300000))
      = TrackerState.mk none none (some "main")
          (updateBranchTime [] "ws" "main" (Int.fdiv (T + 300000 - T) 1000)) "ws"
          (some "main") (some T) (some "ws") :=
    stopAndLogTime_false_spec (TrackerState.mk (some T) (some "main") (some "main") [] "ws"
        (some "main") (some T) (some "ws"))
      (T + 300000) T "main" rfl (by omega) rfl (by decide)
  have harith1 : Int.fdiv (T + 300000 - T) 1000 = 300 := by
    rw [show T + 300000 - T = (300000 : Int) from by ring]
    decide
  have hled1 : updateBranchTime [] "ws" "main" (300 : Int)
      = [("ws", [("main", 300)])] := by decide
  have hstart2 : step (TrackerState.mk none none (some "main")
        [("ws", [("main", 300)])] "ws" (some "main") (some T) (some "ws"))
      (Sig.activity (some "main") (T + 400000))
      = TrackerState.mk (some (T + 400000)) (some "main") (some "main")
          [("ws", [("main", 300)])] "ws" (some "main") (some (T + 400000))
          (some "ws") :=
    startTracking_fresh (TrackerState.mk none none (some "main")
        [("ws", [("main", 300)])] "ws" (some "main") (some T) (some "ws"))
      "main" (T + 400000) (by decide) rfl
  have hsame2 : step (TrackerState.mk (some (T + 400000)) (some "main")
        (some "main") [("ws", [("main", 300)])] "ws" (some "main")
        (some (T + 400000)) (some "ws"))
      (Sig.activity (some "main") (T + 400000))
      = TrackerState.mk (some (T + 400000)) (some "main") (some "main")
          [("ws", [("main", 300)])] "ws" (some "main") (some (T + 400000))
          (some "ws") :=
    startTracking_same (TrackerState.mk (some (T + 400000)) (some "main")
        (some "main") [("ws", [("main", 300)])] "ws" (some "main")
        (some (T + 400000)) (some "ws"))
      "main" (T + 400000) (T + 400000) (by decide) rfl rfl (by omega)
  have hstop2 : step (TrackerState.mk (some (T + 400000)) (some "main")
        (some "main") [("ws", [("main", 300)])] "ws" (some "main")
        (some (T + 400000)) (some "ws")) (Sig.focusLost (T + 450000))
      = TrackerState.mk none none (some "main")
          (updateBranchTime [("ws", [("main", 300)])] "ws" "main"
            (Int.fdiv (T + 450000 - (T + 400000)) 1000)) "ws"
          (some "main") (some (T + 400000)) (some "ws") :=
    stopAndLogTime_false_spec (TrackerState.mk (some (T + 400000)) (some "main")
        (some "main") [("ws", [("main", 300)])] "ws" (some "main")
        (some (T + 400000)) (some "ws"))
      (T + 450000) (T + 400000) "main" rfl (by omega) rfl (by decide)
  have harith2 : Int.fdiv (T + 450000 - (T + 400000)) 1000 = 50 := by
    rw [show T + 450000 - (T + 400000) = (50000 : Int) from by ring]
    decide
  have hled2 : updateBranchTime [("ws", [("main", 300)])] "ws" "main" (50 : Int)
      = [("ws", [("main", 350)])] := by decide
  refine ⟨?_, ?_, ?_, ?_⟩
  · simp only [run_cons, run_nil]
    rw [hstart, hsame1]
  · simp only [run_cons, run_nil]
    rw [hstart, hsame1, hstop1, harith1, hled1]
  · simp only [run_cons, run_nil]
    rw [hstart, hsame1, hstop1, harith1, hled1, hstart2]
  · simp only [run_cons, run_nil]
    rw [hstart, hsame1, hstop1, harith1, hled1, hstart2, hsame2, hstop2,
      harith2, hled2]

/-- C9 witness: the scenario run concretely from start time 1. -/
theorem C9_end_to_end_witness :
    (0 : Int) < 1
    ∧ (run (TrackerState.mk none none none [] "ws" none none none)
          [Sig.activity (some "main") 1, Sig.activity (some "main") (1 + 100000)]
        = run (TrackerState.mk none none none [] "ws" none none none)
            [Sig.activity (some "main") 1]
      ∧ (run (TrackerState.mk none none none [] "ws" none none none)
          [Sig.activity (some "main") 1, Sig.activity (some "main") (1 + 100000),
           Sig.focusLost (1 + 300000)]).branchTimeMap = [("ws", [("main", 300)])]
      ∧ (run (TrackerState.mk none none none [] "ws" none none none)
          [Sig.activity (some "main") 1, Sig.activity (some "main") (1 + 100000),
           Sig.focusLost (1 + 300000),
           Sig.activity (some "main") (1 + 400000)]).trackingStart
          = some (1 + 400000)
      ∧ (run (TrackerState.mk none none none [] "ws" none none none)
          [Sig.activity (some "main") 1, Sig.activity (some "main") (1 + 100000),
           Sig.focusLost (1 + 300000), Sig.activity (some "main") (1 + 400000),
           Sig.activity (some "main") (1 + 400000),
           Sig.focusLost (1 + 450000)]).branchTimeMap
          = [("ws", [("main", 350)])]) :=
  ⟨by decide, C9_end_to_end 1 (by decide)⟩

/-- C2 witness: one switch and a final stop on a concrete short trace satisfy
the corrected bounds. -/
theorem C2_switch_sum_bounds_witness :
    chainOk "a" 1 [("b", 500)] 1000 = true
    ∧ (Int.fdiv (1000 - 1) 1000 - (([("b", 500)] : List (String × Int)).length : Int)
        ≤ ledgerSum (run (TrackerState.mk none none none [] "w" none none none)
            (Sig.activity (some "a") 1 :: switchTrace [("b", 500)] 1000)).branchTimeMap
          - ledgerSum []
      ∧ ledgerSum (run (TrackerState.mk none none none [] "w" none none none)
            (Sig.activity (some "a") 1 :: switchTrace [("b", 500)] 1000)).branchTimeMap
          - ledgerSum []
        ≤ Int.fdiv (1000 - 1) 1000) :=
  ⟨by decide,
    C2_switch_sum_bounds none none [] "w" none none none "a" 1 [("b", 500)] 1000
      (by decide) (by decide) (by decide) (by decide)⟩

end BranchTimer
